import Mathlib

/-!
Shallow embedding of the choice/subgroup resolution logic of
`simple_parsing/helpers/fields.py` (functions `field`, `choice`, `subgroups`),
together with proofs of the specification's claims about it.

Modelling conventions:
* Python scalar values that appear as choice keys, defaults and dictionary
  entries are modelled by `PyVal`; Python `==` on them is structural equality.
* An enum class is modelled by `EnumInfo`: its type name plus its member
  names in declaration order; the member object for name `n` of enum `E`
  is `PyVal.venum E n`.
* A dataclass type (a subgroup value) is modelled by `SubVal`, carrying an
  object identity `id` (Python `is` compares identities) and an equality
  class `cls` (a user-defined `__eq__` compares these; identical objects are
  always equal), plus the `dataclasses.is_dataclass` flag.
* Python dictionaries are association lists in insertion order; lookups take
  the first matching key, iteration follows list order.
* `dataclasses.MISSING` is `none`; a present argument is `some _`.
* Raised exceptions become `Except.error`; `warnings.warn` is counted in the
  result (`warnings` field) instead of being a side effect.
* Keyword arguments that flow from `choice`/`subgroups` into `field` are the
  `Kwargs` structure; the produced `dataclasses.field(...)` descriptor is the
  `FieldResult` structure (its `metadata` holds what `field` stores there).
  The `type=str` keyword that `subgroups` adds is irrelevant to every claim
  and is not represented.
-/

set_option autoImplicit false

namespace SimpleParsing

/-- A Python scalar value: string, int, bool, or an enum member
(`venum t n` is member `n` of the enum type named `t`). -/
inductive PyVal where
  | vstr : String → PyVal
  | vint : Int → PyVal
  | vbool : Bool → PyVal
  | venum : String → String → PyVal
deriving DecidableEq, Repr

/-- An enum class: its type name and its member names in declaration order. -/
structure EnumInfo where
  ename : String
  members : List String
deriving DecidableEq, Repr

/-- A candidate subgroup value (in Python, a class object). `id` models object
identity (`is`), `cls` models the equality class used by `==` (identical
objects are always `==`), `isDataclass` models `dataclasses.is_dataclass`. -/
structure SubVal where
  id : Nat
  cls : Nat
  isDataclass : Bool
deriving DecidableEq, Repr

/-- Python `a is b` on subgroup values. -/
def pyIs (a b : SubVal) : Bool := a.id == b.id

/-- Python `a == b` on subgroup values: identical objects are equal, and
otherwise user-defined equality compares the equality classes. -/
def pyEqV (a b : SubVal) : Bool := a.id == b.id || a.cls == b.cls

/-- Python `f in vs` (membership tests `is` or `==` against each element). -/
def pyInVals (f : SubVal) (vs : List SubVal) : Bool :=
  vs.any (fun v => pyIs f v || pyEqV f v)

/-- A Python object that can be passed as a positional argument to `choice`:
a scalar, a list/sequence of scalars, a dict, or an enum class. -/
inductive PyObj where
  | atom : PyVal → PyObj
  | objList : List PyVal → PyObj
  | pdict : List (PyVal × PyVal) → PyObj
  | enumCls : EnumInfo → PyObj
deriving DecidableEq, Repr

/-- The serialization encoding function stored in field metadata: either a
caller-supplied opaque function (identified by a tag) or the `_encoding_fn`
closure that `choice` builds over a choice dict. -/
inductive EncFn where
  | user : Nat → EncFn
  | fromDict : List (PyVal × PyVal) → EncFn
deriving DecidableEq, Repr

/-- The serialization decoding function stored in field metadata: either a
caller-supplied opaque function or the `_decoding_fn` closure of `choice`. -/
inductive DecFn where
  | user : Nat → DecFn
  | fromDict : List (PyVal × PyVal) → DecFn
deriving DecidableEq, Repr

/-- `list(d.keys())` for an insertion-ordered dict. -/
def dictKeys (d : List (PyVal × PyVal)) : List PyVal := d.map Prod.fst

/-- `list(d.values())` for an insertion-ordered dict. -/
def dictValues (d : List (PyVal × PyVal)) : List PyVal := d.map Prod.snd

/-- `d.get(k, dflt)`: the value at the first matching key, else `dflt`. -/
def dictGet (d : List (PyVal × PyVal)) (k : PyVal) (dflt : PyVal) : PyVal :=
  match d.find? (fun kv => kv.1 == k) with
  | some kv => kv.2
  | none => dflt

/-- Body of the `_encoding_fn` closure that `choice` builds for a dict-based
choice set: keys pass through, a value is replaced by the first key mapped to
it, anything else passes through. (The `[...][0]` subscript of the source is
guarded by the `value in choice_dict.values()` test, so the `headD` fallback
is never taken.) -/
def encodingApply (choice_dict : List (PyVal × PyVal)) (value : PyVal) : PyVal :=
  if (dictKeys choice_dict).contains value then
    value
  else if (dictValues choice_dict).contains value then
    ((choice_dict.filter (fun kv => kv.2 == value)).map Prod.fst).headD value
  else
    value

/-- Body of the `_decoding_fn` closure that `choice` builds for a dict-based
choice set: `choice_dict.get(value, value)`. -/
def decodingApply (choice_dict : List (PyVal × PyVal)) (value : PyVal) : PyVal :=
  dictGet choice_dict value value

/-- The metadata dictionary attached to the produced field (only the entries
the modelled code paths touch). `subgroup_default = some none` means the
entry is present and holds `MISSING`. -/
structure Metadata where
  choice_dict : Option (List (PyVal × PyVal)) := none
  subgroups : Option (List (PyVal × SubVal)) := none
  subgroup_default : Option (Option PyVal) := none
deriving DecidableEq, Repr

/-- The keyword arguments threaded from `choice`/`subgroups` into `field`. -/
structure Kwargs where
  encoding_fn : Option EncFn := none
  decoding_fn : Option DecFn := none
  metadata : Metadata := {}
  default_factory : Option SubVal := none
deriving DecidableEq, Repr

/-- The `choices` object that ends up in the field's keyword arguments:
`keys` is the `list(choice_dict.keys())` of the dict/enum branch, `single`
is a lone non-dict non-enum positional argument passed through unchanged,
`tuple` is the unchanged tuple of two or more positional arguments. -/
inductive ChoicesOut where
  | keys : List PyVal → ChoicesOut
  | single : PyObj → ChoicesOut
  | tuple : List PyObj → ChoicesOut
deriving DecidableEq, Repr

/-- The `dataclasses.field(...)` descriptor produced by `field`, with the
metadata entries the modelled code paths store. `warnings` counts the
`warnings.warn` calls made while producing it. -/
structure FieldResult where
  default : Option PyVal
  default_factory : Option SubVal
  choices : ChoicesOut
  metadata : Metadata
  encoding_fn : Option EncFn
  decoding_fn : Option DecFn
  warnings : Nat
deriving DecidableEq, Repr

/-- A raised Python exception. -/
inductive PyError where
  | assertionError : String → PyError
  | valueError : String → PyError
deriving DecidableEq, Repr

/-- The `field` function (lines 25-154): assembles the metadata and the
descriptor. When `default` is present it calls `dataclasses.field` with the
default only, so a simultaneously supplied `default_factory` is dropped; when
`default` is `MISSING` and a factory is present, the factory is used. The
`encoding_fn`/`decoding_fn` keywords are stored in the metadata only when
supplied. (No `action` keyword arises on the modelled paths, so `field`
never raises here.) -/
def fieldFn (default : Option PyVal) (default_factory : Option SubVal)
    (choices : ChoicesOut) (md : Metadata) (enc : Option EncFn)
    (dec : Option DecFn) (warns : Nat) : FieldResult :=
  { default := default
    default_factory := if default.isSome then none else default_factory
    choices := choices
    metadata := md
    encoding_fn := enc
    decoding_fn := dec
    warnings := warns }

/-- The enum branch of `choice` (line 201): `OrderedDict((e.name, e) for e in
choice_enum)`. -/
def enumToDict (e : EnumInfo) : List (PyVal × PyVal) :=
  e.members.map (fun n => (PyVal.vstr n, PyVal.venum e.ename n))

/-- `isinstance(v, choice_enum)`: `v` is a member object of that enum type. -/
def isInstanceOfEnum (v : PyVal) (e : EnumInfo) : Bool :=
  match v with
  | .venum t _ => t == e.ename
  | _ => false

/-- The `isinstance(choices, dict)` branch of `choice` (lines 217-246):
stores the choice dict in the metadata, reduces the choices to the key list,
and installs the dict-derived encode/decode functions unless the caller
supplied their own (`kwargs.setdefault`). Ends in the final `field` call. -/
def choiceDictBranch (choice_dict : List (PyVal × PyVal)) (default : Option PyVal)
    (warns : Nat) (kw : Kwargs) : FieldResult :=
  let md := { kw.metadata with choice_dict := some choice_dict }
  let enc := some (kw.encoding_fn.getD (EncFn.fromDict choice_dict))
  let dec := some (kw.decoding_fn.getD (DecFn.fromDict choice_dict))
  fieldFn default kw.default_factory (ChoicesOut.keys (dictKeys choice_dict))
    md enc dec warns

/-- The `choice` function (lines 173-248). `args` is the tuple of positional
arguments, `default` the `default` keyword (`none` = `MISSING`). -/
def choice (args : List PyObj) (default : Option PyVal) (kw : Kwargs) :
    Except PyError FieldResult :=
  match args with
  | [] => .error (.assertionError "Choice requires at least one positional argument!")
  | [c] =>
    match c with
    | .enumCls e =>
      let d := enumToDict e
      match default with
      | some dv =>
        if isInstanceOfEnum dv e then
          .ok (choiceDictBranch d (some dv) 0 kw)
        else if (dictKeys d).contains dv then
          .ok (choiceDictBranch d (some (dictGet d dv dv)) 1 kw)
        else
          .error (.valueError "default arg should be of the enum type")
      | none => .ok (choiceDictBranch d none 0 kw)
    | .pdict d => .ok (choiceDictBranch d default 0 kw)
    | other =>
      .ok (fieldFn default kw.default_factory (ChoicesOut.single other)
        kw.metadata kw.encoding_fn kw.decoding_fn 0)
  | more =>
    .ok (fieldFn default kw.default_factory (ChoicesOut.tuple more)
      kw.metadata kw.encoding_fn kw.decoding_fn 0)

/-- The `matching_keys` computation of `subgroups` (lines 432-435): keys whose
value `is` the factory; if none, keys whose value `==` the factory. -/
def subgroupMatchingKeys (m : List (PyVal × SubVal)) (f : SubVal) : List PyVal :=
  if ((m.filter (fun kv => pyIs kv.2 f)).map Prod.fst).isEmpty then
    (m.filter (fun kv => pyEqV kv.2 f)).map Prod.fst
  else
    (m.filter (fun kv => pyIs kv.2 f)).map Prod.fst

/-- The `subgroups` function (lines 372-449). `m` is the subgroups dict,
`default` the default key, `default_factory` the default factory type. -/
def subgroups (m : List (PyVal × SubVal)) (default : Option PyVal)
    (default_factory : Option SubVal) (kw : Kwargs) :
    Except PyError FieldResult :=
  if !(m.all (fun kv => kv.2.isDataclass)) then
    .error (.valueError "All values in the subgroups dict need to be dataclasses!")
  else if default_factory.isSome && default.isSome then
    .error (.valueError "Cannot pass both default and default_factory!")
  else
    match default, default_factory with
    | some dk, _ =>
      if !((m.map Prod.fst).contains dk) then
        .error (.valueError "default must be a key in the subgroups dict!")
      else
        let fac := (m.find? (fun kv => kv.1 == dk)).map Prod.snd
        let md := { kw.metadata with
                    subgroups := some m
                    subgroup_default := some (some dk) }
        choice [PyObj.objList (m.map Prod.fst)] none
          { kw with metadata := md, default_factory := fac }
    | none, some f =>
      if !(pyInVals f (m.map Prod.snd)) then
        .error (.valueError "default_factory must be a value in the subgroups dict!")
      else
        let matching_keys := subgroupMatchingKeys m f
        if 1 < matching_keys.length then
          .error (.valueError "Default subgroup is found more than once in the subgroups dict")
        else
          let md := { kw.metadata with
                      subgroups := some m
                      subgroup_default := some matching_keys.head? }
          choice [PyObj.objList (m.map Prod.fst)] none
            { kw with metadata := md, default_factory := some f }
    | none, none =>
      let md := { kw.metadata with
                  subgroups := some m
                  subgroup_default := some none }
      choice [PyObj.objList (m.map Prod.fst)] none
        { kw with metadata := md, default_factory := none }

/-! ## General helper lemmas -/

/-- The first element satisfying `p` is the head of the filtered list. -/
theorem find?_eq_filter_head? {α : Type} (p : α → Bool) (l : List α) :
    l.find? p = (l.filter p).head? := by
  induction l with
  | nil => rfl
  | cons a t ih =>
    cases h : p a with
    | true => rw [List.find?_cons_of_pos _ h, List.filter_cons_of_pos h]; rfl
    | false =>
      rw [List.find?_cons_of_neg _ (by simp [h]), List.filter_cons_of_neg (by simp [h]), ih]

/-- `decodingApply` is the value at the first matching key, defaulting to the
argument itself. -/
theorem decodingApply_eq_find (m : List (PyVal × PyVal)) (k : PyVal) :
    decodingApply m k = ((m.find? (fun kv => kv.1 == k)).map Prod.snd).getD k := by
  unfold decodingApply dictGet
  cases m.find? (fun kv => kv.1 == k) <;> rfl

/-! ## Claim theorems -/

/-- C1 (evidence of the code bug): `choice("a", "b", default="c")` and
`choice(["a", "b"], default="c")` both return a field whose default is `"c"`
without raising anything, although `"c"` is not among the given choices —
contrary to the docstring of `choice`, which promises a `ValueError` when the
default value is not part of the given choices. -/
theorem choice_plain_default_not_member_no_error :
    (∃ r, choice [PyObj.atom (PyVal.vstr "a"), PyObj.atom (PyVal.vstr "b")]
        (some (PyVal.vstr "c")) {} = .ok r ∧ r.default = some (PyVal.vstr "c")) ∧
    (∃ r, choice [PyObj.objList [PyVal.vstr "a", PyVal.vstr "b"]]
        (some (PyVal.vstr "c")) {} = .ok r ∧ r.default = some (PyVal.vstr "c")) :=
  ⟨⟨_, rfl, rfl⟩, ⟨_, rfl, rfl⟩⟩

/-- C2 (counterexample to the claim as stated): a single empty mapping passed
to `choice` resolves successfully, with an empty canonical-choices list,
instead of failing. -/
theorem choice_empty_dict_succeeds :
    ∃ r, choice [PyObj.pdict []] none {} = .ok r ∧
      r.choices = ChoicesOut.keys [] :=
  ⟨_, rfl, rfl⟩

/-- C2 (amended): calling `choice` with zero positional choices fails with the
assertion error; but a single empty mapping passed to `choice`, and an empty
mapping passed to `subgroups`, resolve successfully and produce an empty
canonical-choices list. -/
theorem choice_empty_cases (d : Option PyVal) (kw : Kwargs) :
    choice [] d kw =
      .error (.assertionError "Choice requires at least one positional argument!") ∧
    (∃ r, choice [PyObj.pdict []] d kw = .ok r ∧ r.choices = ChoicesOut.keys []) ∧
    (∃ s, subgroups [] none none kw = .ok s ∧
      s.choices = ChoicesOut.single (PyObj.objList [])) :=
  ⟨rfl, ⟨_, rfl, rfl⟩, ⟨_, rfl, rfl⟩⟩

/-- C4: whenever both a default key and a default factory are supplied to
`subgroups` (over any mapping of dataclass values), it fails with the
conflicting-defaults error, before either is validated on its own. -/
theorem subgroups_conflicting_defaults (m : List (PyVal × SubVal)) (dk : PyVal)
    (f : SubVal) (kw : Kwargs)
    (hdc : m.all (fun kv => kv.2.isDataclass) = true) :
    subgroups m (some dk) (some f) kw =
      .error (.valueError "Cannot pass both default and default_factory!") := by
  simp [subgroups, hdc]

/-- C4 witness: a two-entry subgroup mapping where the default key and the
default factory are each valid on their own, yet supplying both fails. -/
theorem subgroups_conflicting_defaults_witness :
    subgroups [(PyVal.vstr "a", ⟨0, 0, true⟩), (PyVal.vstr "b", ⟨1, 1, true⟩)]
      (some (PyVal.vstr "a")) (some ⟨1, 1, true⟩) {} =
      .error (.valueError "Cannot pass both default and default_factory!") :=
  subgroups_conflicting_defaults _ _ _ _ rfl

/-- C8: resolution is deterministic — `choice` and `subgroups` applied to
equal inputs return equal results (the embedding is a pure function of its
arguments; there is no shared state between invocations). -/
theorem resolver_deterministic (a1 a2 : List PyObj) (d1 d2 : Option PyVal)
    (k1 k2 : Kwargs) (m1 m2 : List (PyVal × SubVal)) (s1 s2 : Option PyVal)
    (f1 f2 : Option SubVal)
    (ha : a1 = a2) (hd : d1 = d2) (hk : k1 = k2)
    (hm : m1 = m2) (hs : s1 = s2) (hf : f1 = f2) :
    choice a1 d1 k1 = choice a2 d2 k2 ∧
    subgroups m1 s1 f1 k1 = subgroups m2 s2 f2 k2 := by
  subst ha; subst hd; subst hk; subst hm; subst hs; subst hf
  exact ⟨rfl, rfl⟩

/-- C8 witness: two calls of each resolver on equal concrete fresh inputs
yield identical results. -/
theorem resolver_deterministic_witness :
    choice [PyObj.atom (PyVal.vint 1)] none {} =
      choice [PyObj.atom (PyVal.vint 1)] none {} ∧
    subgroups [(PyVal.vstr "a", ⟨0, 0, true⟩)] none none {} =
      subgroups [(PyVal.vstr "a", ⟨0, 0, true⟩)] none none {} :=
  resolver_deterministic _ _ _ _ _ _ _ _ _ _ _ _ rfl rfl rfl rfl rfl rfl

/-- C3: case analysis of the mapping-derived encode/decode functions: encode
passes keys through unchanged, maps a mapping value to the first key (in
iteration order) whose value equals it, and passes anything else through;
decode maps a present key to its value and passes unknown keys through —
together with the four concrete facts for the mapping
`{"small": 1, "big": 100}`. -/
theorem choice_dict_encode_decode (m : List (PyVal × PyVal)) (v k : PyVal) :
    ((dictKeys m).contains v = true → encodingApply m v = v) ∧
    ((dictKeys m).contains v = false → (dictValues m).contains v = true →
      encodingApply m v =
        ((m.find? (fun kv => kv.2 == v)).map Prod.fst).getD v) ∧
    ((dictKeys m).contains v = false → (dictValues m).contains v = false →
      encodingApply m v = v) ∧
    ((dictKeys m).contains k = true →
      decodingApply m k =
        ((m.find? (fun kv => kv.1 == k)).map Prod.snd).getD k) ∧
    ((dictKeys m).contains k = false → decodingApply m k = k) ∧
    decodingApply [(PyVal.vstr "small", PyVal.vint 1),
        (PyVal.vstr "big", PyVal.vint 100)] (PyVal.vstr "small") = PyVal.vint 1 ∧
    decodingApply [(PyVal.vstr "small", PyVal.vint 1),
        (PyVal.vstr "big", PyVal.vint 100)] (PyVal.vstr "unknown") =
      PyVal.vstr "unknown" ∧
    encodingApply [(PyVal.vstr "small", PyVal.vint 1),
        (PyVal.vstr "big", PyVal.vint 100)] (PyVal.vint 1) = PyVal.vstr "small" ∧
    encodingApply [(PyVal.vstr "small", PyVal.vint 1),
        (PyVal.vstr "big", PyVal.vint 100)] (PyVal.vint 42) = PyVal.vint 42 := by
  refine ⟨?_, ?_, ?_, ?_, ?_, rfl, rfl, rfl, rfl⟩
  · intro h
    have h' : v ∈ dictKeys m := by simpa using h
    simp [encodingApply, h']
  · intro h1 h2
    have h1' : v ∉ dictKeys m := by simpa using h1
    have h2' : v ∈ dictValues m := by simpa using h2
    have hbody : encodingApply m v =
        ((m.filter (fun kv => kv.2 == v)).map Prod.fst).headD v := by
      simp [encodingApply, h1', h2']
    rw [hbody, find?_eq_filter_head?, List.headD_eq_head?, List.head?_map]
  · intro h1 h2
    have h1' : v ∉ dictKeys m := by simpa using h1
    have h2' : v ∉ dictValues m := by simpa using h2
    simp [encodingApply, h1', h2']
  · intro _; exact decodingApply_eq_find m k
  · intro h
    rw [decodingApply_eq_find]
    have hnone : m.find? (fun kv => kv.1 == k) = none := by
      rw [List.find?_eq_none]
      intro kv hkv
      simp only [beq_iff_eq]
      intro hk
      have : (dictKeys m).contains k = true := by
        simp only [dictKeys, List.contains, List.elem_eq_mem, decide_eq_true_eq]
        exact hk ▸ List.mem_map_of_mem Prod.fst hkv
      rw [this] at h
      cases h
    simp [hnone]

/-- C3 witness: the middle encode case at a concrete input — `1` is not a key
but is a value of `{"small": 1, "big": 100}`, so encode returns the first key
whose value equals it. -/
theorem choice_dict_encode_decode_witness :
    encodingApply [(PyVal.vstr "small", PyVal.vint 1),
        (PyVal.vstr "big", PyVal.vint 100)] (PyVal.vint 1) =
      (([(PyVal.vstr "small", PyVal.vint 1), (PyVal.vstr "big", PyVal.vint 100)].find?
          (fun kv => kv.2 == PyVal.vint 1)).map Prod.fst).getD (PyVal.vint 1) :=
  (choice_dict_encode_decode
      [(PyVal.vstr "small", PyVal.vint 1), (PyVal.vstr "big", PyVal.vint 100)]
      (PyVal.vint 1) (PyVal.vstr "small")).2.1 rfl rfl

/-- Membership in the key list of the dict built from an enum class means the
value is one of the member-name strings. -/
theorem mem_enumToDict_keys (e : EnumInfo) (dv : PyVal) :
    (dictKeys (enumToDict e)).contains dv = true ↔
      ∃ n, dv = PyVal.vstr n ∧ n ∈ e.members := by
  simp only [dictKeys, enumToDict, List.map_map, List.contains, List.elem_eq_mem,
    decide_eq_true_eq, List.mem_map, Function.comp]
  constructor
  · rintro ⟨n, hn, rfl⟩
    exact ⟨n, rfl, hn⟩
  · rintro ⟨n, rfl, hn⟩
    exact ⟨n, hn, rfl⟩

/-- Looking up a member name in the dict built from an enum class yields the
member object of that name. -/
theorem find_pair_mem (t n : String) (ms : List String) (hn : n ∈ ms) :
    (ms.map (fun m => (PyVal.vstr m, PyVal.venum t m))).find?
        (fun kv => kv.1 == PyVal.vstr n) =
      some (PyVal.vstr n, PyVal.venum t n) := by
  induction ms with
  | nil => cases hn
  | cons a tl ih =>
    by_cases ha : a = n
    · subst ha
      rw [List.map_cons, List.find?_cons_of_pos]
      simp
    · have hn' : n ∈ tl := by
        cases hn with
        | head => exact absurd rfl ha
        | tail _ h => exact h
      rw [List.map_cons, List.find?_cons_of_neg _ (by simp [ha]), ih hn']

/-- `dictGet` on the enum dict returns the member object for a member name. -/
theorem enumToDict_get (e : EnumInfo) (n : String) (dflt : PyVal)
    (hn : n ∈ e.members) :
    dictGet (enumToDict e) (PyVal.vstr n) dflt = PyVal.venum e.ename n := by
  unfold dictGet enumToDict
  rw [find_pair_mem e.ename n e.members hn]

/-- C6: for an enum choice set, the canonical choices are the member names in
declaration order, and a default that is already a member object of that enum
is accepted unchanged with no warning emitted. -/
theorem choice_enum_member_default (e : EnumInfo) (n : String) (kw : Kwargs) :
    ∃ r, choice [PyObj.enumCls e] (some (PyVal.venum e.ename n)) kw = .ok r ∧
      r.choices = ChoicesOut.keys (e.members.map PyVal.vstr) ∧
      r.default = some (PyVal.venum e.ename n) ∧
      r.warnings = 0 := by
  have hinst : isInstanceOfEnum (PyVal.venum e.ename n) e = true := by
    simp [isInstanceOfEnum]
  refine ⟨choiceDictBranch (enumToDict e) (some (PyVal.venum e.ename n)) 0 kw,
    ?_, ?_, rfl, rfl⟩
  · simp [choice, hinst]
  · simp [choiceDictBranch, fieldFn, dictKeys, enumToDict, List.map_map,
      Function.comp]

/-- C7: for an enum choice set with a default that is not a member object:
if it equals one of the member names, resolution succeeds with exactly one
warning and the resolved default substituted by the corresponding member;
otherwise resolution fails with the configuration error. -/
theorem choice_enum_name_default (e : EnumInfo) (dv : PyVal) (kw : Kwargs)
    (hni : isInstanceOfEnum dv e = false) :
    ((dictKeys (enumToDict e)).contains dv = true →
      ∃ n r, dv = PyVal.vstr n ∧ n ∈ e.members ∧
        choice [PyObj.enumCls e] (some dv) kw = .ok r ∧
        r.warnings = 1 ∧
        r.default = some (PyVal.venum e.ename n) ∧
        r.choices = ChoicesOut.keys (e.members.map PyVal.vstr)) ∧
    ((dictKeys (enumToDict e)).contains dv = false →
      choice [PyObj.enumCls e] (some dv) kw =
        .error (.valueError "default arg should be of the enum type")) := by
  constructor
  · intro hc
    obtain ⟨n, rfl, hn⟩ := (mem_enumToDict_keys e dv).mp hc
    have hc' : PyVal.vstr n ∈ dictKeys (enumToDict e) := by simpa using hc
    refine ⟨n, choiceDictBranch (enumToDict e)
      (some (dictGet (enumToDict e) (PyVal.vstr n) (PyVal.vstr n))) 1 kw,
      rfl, hn, ?_, rfl, ?_, ?_⟩
    · simp [choice, hni, hc, hc']
    · simp [choiceDictBranch, fieldFn, enumToDict_get e n _ hn]
    · simp [choiceDictBranch, fieldFn, dictKeys, enumToDict, List.map_map,
        Function.comp]
  · intro hc
    have hc' : dv ∉ dictKeys (enumToDict e) := by simpa using hc
    simp [choice, hni, hc, hc']

/-- C7 witness: for the enum `Color {A, B, C}` with default the name string
`"B"`, resolution succeeds with one warning and the member `B` as the
resolved default. -/
theorem choice_enum_name_default_witness :
    ∃ n r, PyVal.vstr "B" = PyVal.vstr n ∧
      n ∈ (⟨"Color", ["A", "B", "C"]⟩ : EnumInfo).members ∧
      choice [PyObj.enumCls ⟨"Color", ["A", "B", "C"]⟩]
        (some (PyVal.vstr "B")) {} = .ok r ∧
      r.warnings = 1 ∧
      r.default = some (PyVal.venum "Color" n) ∧
      r.choices =
        ChoicesOut.keys ((⟨"Color", ["A", "B", "C"]⟩ : EnumInfo).members.map PyVal.vstr) :=
  (choice_enum_name_default ⟨"Color", ["A", "B", "C"]⟩ (PyVal.vstr "B") {}
    rfl).1 rfl

/-- C10: for a mapping-based choice set, a caller-supplied `encoding_fn` or
`decoding_fn` is kept in the resulting field metadata; the mapping-derived
encode/decode functions are installed only when the caller supplied none. -/
theorem choice_dict_user_enc_dec (d : List (PyVal × PyVal)) (dv : Option PyVal)
    (kw : Kwargs) (r : FieldResult)
    (h : choice [PyObj.pdict d] dv kw = .ok r) :
    (∀ ef, kw.encoding_fn = some ef → r.encoding_fn = some ef) ∧
    (kw.encoding_fn = none → r.encoding_fn = some (EncFn.fromDict d)) ∧
    (∀ df, kw.decoding_fn = some df → r.decoding_fn = some df) ∧
    (kw.decoding_fn = none → r.decoding_fn = some (DecFn.fromDict d)) := by
  have hr : r = choiceDictBranch d dv 0 kw := by
    simp only [choice, Except.ok.injEq] at h
    exact h.symm
  subst hr
  refine ⟨?_, ?_, ?_, ?_⟩
  · intro ef hef; simp [choiceDictBranch, fieldFn, hef]
  · intro hef; simp [choiceDictBranch, fieldFn, hef]
  · intro df hdf; simp [choiceDictBranch, fieldFn, hdf]
  · intro hdf; simp [choiceDictBranch, fieldFn, hdf]

/-- C10 witness: with a caller-supplied encoding function, the dict branch of
`choice` keeps the caller's function in the metadata. -/
theorem choice_dict_user_enc_dec_witness :
    (choiceDictBranch [(PyVal.vstr "a", PyVal.vint 1)] none 0
        { encoding_fn := some (EncFn.user 7) }).encoding_fn =
      some (EncFn.user 7) :=
  (choice_dict_user_enc_dec [(PyVal.vstr "a", PyVal.vint 1)] none
      { encoding_fn := some (EncFn.user 7) } _ rfl).1 (EncFn.user 7) rfl

/-- The Python membership test `default_factory in m.values()` succeeds iff
some entry of `m` has a value `==`-related to the factory. -/
theorem pyInVals_iff (m : List (PyVal × SubVal)) (f : SubVal) :
    pyInVals f (m.map Prod.snd) = true ↔ ∃ kv ∈ m, pyEqV kv.2 f = true := by
  unfold pyInVals pyIs pyEqV
  simp only [List.any_eq_true, List.mem_map, Bool.or_eq_true, beq_iff_eq]
  constructor
  · rintro ⟨v, ⟨kv, hkv, rfl⟩, hv⟩
    refine ⟨kv, hkv, ?_⟩
    rcases hv with h | h | h
    · exact Or.inl h.symm
    · exact Or.inl h.symm
    · exact Or.inr h.symm
  · rintro ⟨kv, hkv, hv⟩
    refine ⟨kv.2, ⟨kv, hkv, rfl⟩, ?_⟩
    rcases hv with h | h
    · exact Or.inl h.symm
    · exact Or.inr (Or.inr h.symm)

/-- The matching-keys list is non-empty exactly when the membership guard of
`subgroups` lets the default-factory branch proceed. -/
theorem subgroupMatchingKeys_ne_nil (m : List (PyVal × SubVal)) (f : SubVal) :
    subgroupMatchingKeys m f ≠ [] ↔ pyInVals f (m.map Prod.snd) = true := by
  rw [pyInVals_iff]
  unfold subgroupMatchingKeys
  by_cases h : (m.filter (fun kv => pyIs kv.2 f)).map Prod.fst = []
  · rw [if_pos (by simpa [List.isEmpty_iff] using h)]
    simp only [ne_eq, List.map_eq_nil_iff, List.filter_eq_nil_iff, not_forall]
    constructor
    · rintro ⟨kv, hkv, hp⟩
      exact ⟨kv, hkv, by simpa using hp⟩
    · rintro ⟨kv, hkv, hp⟩
      exact ⟨kv, hkv, by simpa using hp⟩
  · rw [if_neg (by simpa [List.isEmpty_iff] using h)]
    constructor
    · intro _
      have hex : ∃ kv ∈ m, pyIs kv.2 f = true := by
        by_contra hno
        push_neg at hno
        exact h (by
          simp only [List.map_eq_nil_iff, List.filter_eq_nil_iff]
          intro kv hkv
          simpa using hno kv hkv)
      obtain ⟨kv, hkv, hik⟩ := hex
      refine ⟨kv, hkv, ?_⟩
      unfold pyEqV
      unfold pyIs at hik
      simp [hik]
    · intro _
      exact h

/-- Every matching key is a key of the subgroups mapping. -/
theorem subgroupMatchingKeys_subset (m : List (PyVal × SubVal)) (f : SubVal)
    (k : PyVal) (hk : k ∈ subgroupMatchingKeys m f) : k ∈ m.map Prod.fst := by
  unfold subgroupMatchingKeys at hk
  split at hk <;>
  · obtain ⟨kv, hkv, rfl⟩ := List.mem_map.mp hk
    exact List.mem_map_of_mem Prod.fst (List.mem_of_mem_filter hkv)

/-- C5: for a subgroup mapping (of dataclass values) with a supplied default
factory: if the factory matches no mapping value, `subgroups` fails with the
not-a-value error; if it matches more than one key, it fails with the
ambiguity error; if it matches exactly one key, resolution succeeds and the
resolved default key stored in the metadata is that key (a key of the
mapping). -/
theorem subgroups_default_factory (m : List (PyVal × SubVal)) (f : SubVal)
    (kw : Kwargs) (hdc : m.all (fun kv => kv.2.isDataclass) = true) :
    (pyInVals f (m.map Prod.snd) = false →
      subgroups m none (some f) kw =
        .error (.valueError "default_factory must be a value in the subgroups dict!")) ∧
    (1 < (subgroupMatchingKeys m f).length →
      subgroups m none (some f) kw =
        .error (.valueError "Default subgroup is found more than once in the subgroups dict")) ∧
    (∀ k, subgroupMatchingKeys m f = [k] →
      ∃ r, subgroups m none (some f) kw = .ok r ∧
        r.metadata.subgroup_default = some (some k) ∧
        k ∈ m.map Prod.fst) := by
  refine ⟨?_, ?_, ?_⟩
  · intro h
    simp [subgroups, hdc, h]
  · intro hlt
    have hne : subgroupMatchingKeys m f ≠ [] := by
      intro hnil
      rw [hnil] at hlt
      simp at hlt
    have hmem := (subgroupMatchingKeys_ne_nil m f).mp hne
    simp [subgroups, hdc, hmem, hlt]
  · intro k hk
    have hne : subgroupMatchingKeys m f ≠ [] := by simp [hk]
    have hmem := (subgroupMatchingKeys_ne_nil m f).mp hne
    have hlen : ¬ 1 < (subgroupMatchingKeys m f).length := by simp [hk]
    refine ⟨fieldFn none (some f)
        (ChoicesOut.single (PyObj.objList (m.map Prod.fst)))
        { kw.metadata with subgroups := some m, subgroup_default := some (some k) }
        kw.encoding_fn kw.decoding_fn 0, ?_, rfl, ?_⟩
    · simp [subgroups, hdc, hmem, hlen, hk, choice, fieldFn]
    · exact subgroupMatchingKeys_subset m f k (by simp [hk])

/-- C5 witness: for the mapping `{"a": A, "b": B}` with `default_factory = B`
(matching exactly the value at key `"b"`), resolution succeeds and the
resolved default key is `"b"`. -/
theorem subgroups_default_factory_witness :
    ∃ r, subgroups [(PyVal.vstr "a", ⟨0, 0, true⟩), (PyVal.vstr "b", ⟨1, 1, true⟩)]
        none (some ⟨1, 1, true⟩) {} = .ok r ∧
      r.metadata.subgroup_default = some (some (PyVal.vstr "b")) ∧
      PyVal.vstr "b" ∈
        [(PyVal.vstr "a", (⟨0, 0, true⟩ : SubVal)),
          (PyVal.vstr "b", (⟨1, 1, true⟩ : SubVal))].map Prod.fst :=
  (subgroups_default_factory
      [(PyVal.vstr "a", ⟨0, 0, true⟩), (PyVal.vstr "b", ⟨1, 1, true⟩)]
      ⟨1, 1, true⟩ {} rfl).2.2 (PyVal.vstr "b") rfl

/-- C9: invariant of every successful `subgroups` call — the stored
`subgroup_default` metadata entry is either `MISSING` or a key of the supplied
mapping (never a factory type); the produced field never carries both a
default and a default factory; and a supplied default key is converted into
`default = MISSING` together with `default_factory` equal to the mapping's
value at that key. -/
theorem subgroups_metadata_invariant (m : List (PyVal × SubVal))
    (d : Option PyVal) (f : Option SubVal) (kw : Kwargs) (r : FieldResult)
    (h : subgroups m d f kw = .ok r) :
    (r.metadata.subgroup_default = some none ∨
      ∃ k, r.metadata.subgroup_default = some (some k) ∧ k ∈ m.map Prod.fst) ∧
    (r.default = none ∨ r.default_factory = none) ∧
    (∀ dk, d = some dk →
      r.default = none ∧
      r.default_factory = (m.find? (fun kv => kv.1 == dk)).map Prod.snd) := by
  cases hall : m.all (fun kv => kv.2.isDataclass) with
  | false =>
    simp [subgroups, hall] at h
  | true =>
    cases d with
    | some dk =>
      cases f with
      | some fv =>
        simp [subgroups, hall] at h
      | none =>
        by_cases hk : dk ∈ m.map Prod.fst
        · have hkb : (m.map Prod.fst).contains dk = true := by simpa using hk
          have heq : subgroups m (some dk) none kw = .ok (fieldFn none
              ((m.find? (fun kv => kv.1 == dk)).map Prod.snd)
              (ChoicesOut.single (PyObj.objList (m.map Prod.fst)))
              { kw.metadata with
                subgroups := some m
                subgroup_default := some (some dk) }
              kw.encoding_fn kw.decoding_fn 0) := by
            simp [subgroups, hall, hk, hkb, choice, fieldFn]
          obtain rfl := Except.ok.inj (heq.symm.trans h)
          refine ⟨Or.inr ⟨dk, rfl, hk⟩, Or.inl rfl, ?_⟩
          intro dk' hdk'
          injection hdk' with hdkeq
          subst hdkeq
          exact ⟨rfl, rfl⟩
        · have hkb : (m.map Prod.fst).contains dk = false := by simpa using hk
          simp [subgroups, hall, hk, hkb] at h
    | none =>
      cases f with
      | some fv =>
        cases hpy : pyInVals fv (m.map Prod.snd) with
        | false =>
          simp [subgroups, hall, hpy] at h
        | true =>
          by_cases hlen : 1 < (subgroupMatchingKeys m fv).length
          · simp [subgroups, hall, hpy, hlen] at h
          · have hne : subgroupMatchingKeys m fv ≠ [] :=
              (subgroupMatchingKeys_ne_nil m fv).mpr hpy
            obtain ⟨k, hk1⟩ : ∃ k, subgroupMatchingKeys m fv = [k] := by
              cases hmk : subgroupMatchingKeys m fv with
              | nil => exact absurd hmk hne
              | cons a b =>
                cases b with
                | nil => exact ⟨a, rfl⟩
                | cons c dd =>
                  exfalso
                  apply hlen
                  rw [hmk]
                  simp
            have heq : subgroups m none (some fv) kw = .ok (fieldFn none (some fv)
                (ChoicesOut.single (PyObj.objList (m.map Prod.fst)))
                { kw.metadata with
                  subgroups := some m
                  subgroup_default := some (some k) }
                kw.encoding_fn kw.decoding_fn 0) := by
              simp [subgroups, hall, hpy, hk1, choice, fieldFn]
            obtain rfl := Except.ok.inj (heq.symm.trans h)
            refine ⟨Or.inr ⟨k, rfl, ?_⟩, Or.inl rfl, ?_⟩
            · exact subgroupMatchingKeys_subset m fv k (by simp [hk1])
            · intro dk' hdk'
              cases hdk'
      | none =>
        have heq : subgroups m none none kw = .ok (fieldFn none none
            (ChoicesOut.single (PyObj.objList (m.map Prod.fst)))
            { kw.metadata with
              subgroups := some m
              subgroup_default := some none }
            kw.encoding_fn kw.decoding_fn 0) := by
          simp [subgroups, hall, choice, fieldFn]
        obtain rfl := Except.ok.inj (heq.symm.trans h)
        refine ⟨Or.inl rfl, Or.inl rfl, ?_⟩
        intro dk' hdk'
        cases hdk'

/-- C9 witness: the invariant instantiated at the mapping `{"a": A}` with
default key `"a"` — the stored `subgroup_default` is the key `"a"`, the field
gets no default, and its factory is the mapping's value at `"a"`. -/
theorem subgroups_metadata_invariant_witness :
    ((fieldFn none (some ⟨0, 0, true⟩)
        (ChoicesOut.single (PyObj.objList [PyVal.vstr "a"]))
        { choice_dict := none, subgroups := some [(PyVal.vstr "a", ⟨0, 0, true⟩)],
          subgroup_default := some (some (PyVal.vstr "a")) }
        none none 0).metadata.subgroup_default = some none ∨
      ∃ k, (fieldFn none (some ⟨0, 0, true⟩)
        (ChoicesOut.single (PyObj.objList [PyVal.vstr "a"]))
        { choice_dict := none, subgroups := some [(PyVal.vstr "a", ⟨0, 0, true⟩)],
          subgroup_default := some (some (PyVal.vstr "a")) }
        none none 0).metadata.subgroup_default = some (some k) ∧
        k ∈ [(PyVal.vstr "a", (⟨0, 0, true⟩ : SubVal))].map Prod.fst) ∧
    ((fieldFn none (some ⟨0, 0, true⟩)
        (ChoicesOut.single (PyObj.objList [PyVal.vstr "a"]))
        { choice_dict := none, subgroups := some [(PyVal.vstr "a", ⟨0, 0, true⟩)],
          subgroup_default := some (some (PyVal.vstr "a")) }
        none none 0).default = none ∨
      (fieldFn none (some ⟨0, 0, true⟩)
        (ChoicesOut.single (PyObj.objList [PyVal.vstr "a"]))
        { choice_dict := none, subgroups := some [(PyVal.vstr "a", ⟨0, 0, true⟩)],
          subgroup_default := some (some (PyVal.vstr "a")) }
        none none 0).default_factory = none) ∧
    (∀ dk, (some (PyVal.vstr "a") : Option PyVal) = some dk →
      (fieldFn none (some ⟨0, 0, true⟩)
        (ChoicesOut.single (PyObj.objList [PyVal.vstr "a"]))
        { choice_dict := none, subgroups := some [(PyVal.vstr "a", ⟨0, 0, true⟩)],
          subgroup_default := some (some (PyVal.vstr "a")) }
        none none 0).default = none ∧
      (fieldFn none (some ⟨0, 0, true⟩)
        (ChoicesOut.single (PyObj.objList [PyVal.vstr "a"]))
        { choice_dict := none, subgroups := some [(PyVal.vstr "a", ⟨0, 0, true⟩)],
          subgroup_default := some (some (PyVal.vstr "a")) }
        none none 0).default_factory =
        ([(PyVal.vstr "a", (⟨0, 0, true⟩ : SubVal))].find?
          (fun kv => kv.1 == dk)).map Prod.snd) :=
  subgroups_metadata_invariant [(PyVal.vstr "a", ⟨0, 0, true⟩)]
    (some (PyVal.vstr "a")) none {} _ rfl

end SimpleParsing
